import Mathlib

/-!
Verification development for the Tiny-Debugger core (`src/main.rs`).

The source is a minimal ptrace-based debugger.  We give a shallow embedding
of its pure/stateful core:

* the inferior's memory is modelled as a total map from 64-bit addresses to
  64-bit words (`Mem`); `ptrace::read` / `ptrace::write` become ordinary
  reads and pointwise updates of that map;
* `Breakpoint` and its methods `enable`, `disable`, `toggle_breakpoint`,
  `create_new_breakpoint` are translated directly, with the `i64` bit mask
  `!0xff` rendered as the 64-bit pattern `0xffffffffffffff00`;
* the `HashMap<*mut c_void, Breakpoint>` breakpoint table is modelled as an
  association list with the same lookup / modify-in-place / insert API;
* the command dispatcher (`handle_command`, `handle_breakpoint`) is
  translated token by token, with `println!`/`eprintln!` output collected in
  lists and a panicking `unwrap`/`expect` rendered as `Option.none`;
* the static register descriptor table `REG_DWARF_MAP` is copied verbatim.
-/

set_option maxHeartbeats 1000000

/-! ## Addresses, words and inferior memory -/

/-- A tracee address (`*mut c_void` in the source), a plain 64-bit value. -/
abbrev Addr := Nat

/-- One machine word as read by `ptrace::read` (an `i64` bit pattern,
modelled as a natural number below `2 ^ 64`). -/
abbrev Word := Nat

/-- The inferior's memory: the word `ptrace::read` would return at each
address. -/
abbrev Mem := Addr → Word

/-- `const INT3: i64 = 0xcc;` — the one-byte trap opcode. -/
def INT3 : Nat := 0xcc

/-- The `i64` mask `!0xff` used by `enable`/`disable`, viewed as a 64-bit
pattern. -/
def NEG_LOW_MASK : Nat := 0xffffffffffffff00

/-- Model of `ptrace::read(pid, addr)`: the word at `addr`. -/
def ptraceRead (mem : Mem) (addr : Addr) : Word := mem addr

/-- Model of `ptrace::write(pid, addr, word)`: a pointwise update. -/
def ptraceWrite (mem : Mem) (addr : Addr) (word : Word) : Mem :=
  fun a => if a = addr then word else mem a

/-! ## Breakpoint -/

/-- `struct Breakpoint` from the source. -/
structure Breakpoint where
  tracee_pid : Nat
  addr : Addr
  saved_byte : Nat
  enabled : Bool
  deriving DecidableEq

/-- Result of one Breakpoint method: the updated breakpoint, the updated
inferior memory, and the lines printed to stdout. -/
structure BpStep where
  bp : Breakpoint
  mem : Mem
  log : List String

/-- `Breakpoint::enable`: read the word at `addr`, save its low byte,
write the word back with the low byte replaced by `INT3`, set `enabled`. -/
def Breakpoint.enable (bp : Breakpoint) (mem : Mem) : BpStep :=
  let word := ptraceRead mem bp.addr
  let saved := word &&& 0xff
  let mem1 := ptraceWrite mem bp.addr ((word &&& NEG_LOW_MASK) ||| INT3)
  { bp := { bp with saved_byte := saved, enabled := true },
    mem := mem1,
    log := [toString saved] }

/-- `Breakpoint::disable`: read the current word at `addr`, write it back
with the low byte replaced by `saved_byte`, clear `enabled`. -/
def Breakpoint.disable (bp : Breakpoint) (mem : Mem) : BpStep :=
  let word := ptraceRead mem bp.addr
  let mem1 := ptraceWrite mem bp.addr ((word &&& NEG_LOW_MASK) ||| bp.saved_byte)
  { bp := { bp with enabled := false },
    mem := mem1,
    log := [toString bp.saved_byte] }

/-- `Breakpoint::toggle_breakpoint`: print "Toggling", then disable if
enabled, else enable. -/
def Breakpoint.toggle_breakpoint (bp : Breakpoint) (mem : Mem) : BpStep :=
  if bp.enabled then
    let r := bp.disable mem
    { r with log := "Toggling" :: r.log }
  else
    let r := bp.enable mem
    { r with log := "Toggling" :: r.log }

/-- `Breakpoint::create_new_breakpoint`: build the record with
`saved_byte = 0, enabled = true`, immediately `enable` it, then print the
saved byte once more. -/
def Breakpoint.create_new_breakpoint (tracee_pid : Nat) (addr_ptr : Addr)
    (mem : Mem) : BpStep :=
  let breakpoint : Breakpoint :=
    { tracee_pid := tracee_pid, addr := addr_ptr, saved_byte := 0, enabled := true }
  let r := breakpoint.enable mem
  { r with log := r.log ++ [toString r.bp.saved_byte] }

/-! ## The Breakpoint invariant (C2, C3) -/

/-- The Breakpoint invariant exactly as the specification states it,
relative to the true original byte `orig` at the breakpoint's address:
when `enabled` is true the resident low byte is the trap opcode and
`saved_byte` holds `orig`; when `enabled` is false the resident low byte
equals `saved_byte`. -/
def BreakpointInv (orig : Nat) (bp : Breakpoint) (mem : Mem) : Prop :=
  (bp.enabled = true → (mem bp.addr) &&& 0xff = INT3 ∧ bp.saved_byte = orig) ∧
  (bp.enabled = false → (mem bp.addr) &&& 0xff = bp.saved_byte)

/-- The inductive strengthening of the invariant: `saved_byte` is a byte
and equals the original byte in both states, the resident low byte is the
trap opcode while enabled and the original byte while disabled. -/
def BreakpointInvStrong (orig : Nat) (bp : Breakpoint) (mem : Mem) : Prop :=
  bp.saved_byte = orig ∧ bp.saved_byte < 256 ∧
  (bp.enabled = true → (mem bp.addr) &&& 0xff = INT3) ∧
  (bp.enabled = false → (mem bp.addr) &&& 0xff = orig)

/-- Iterate `toggle_breakpoint` some number of times, threading the
inferior memory through (the only breakpoint operation the running program
ever applies to an existing breakpoint). -/
def applyToggles : Breakpoint → Mem → Nat → Breakpoint × Mem
  | bp, mem, 0 => (bp, mem)
  | bp, mem, n + 1 =>
    let r := bp.toggle_breakpoint mem
    applyToggles r.bp r.mem n

/-! ## Breakpoint table and debugging session -/

/-- Lookup in the breakpoint table (`HashMap::get` on the model). -/
def lookupBp : List (Addr × Breakpoint) → Addr → Option Breakpoint
  | [], _ => none
  | (k, v) :: rest, a => if k = a then some v else lookupBp rest a

/-- Replace the entry at a present key (`Entry::and_modify` writes the
toggled breakpoint back in place). -/
def replaceBp : List (Addr × Breakpoint) → Addr → Breakpoint → List (Addr × Breakpoint)
  | [], _, _ => []
  | (k, v) :: rest, a, b => if k = a then (a, b) :: rest else (k, v) :: replaceBp rest a b

/-- `struct Debugger` from the source (the `HashMap` modelled as an
association list). -/
structure Debugger where
  tracee_pid : Nat
  prog_name : String
  breakpoints : List (Addr × Breakpoint)

/-- Result of a breakpoint-table operation: updated session, updated
inferior memory, stdout lines. -/
structure TableStep where
  dbg : Debugger
  mem : Mem
  stdout : List String

/-- Lines 172–179 of `handle_breakpoint` (the spec's
`toggle_or_create` table operation): report whether an entry exists, then
`entry(..).and_modify(toggle).or_insert_with(create)`. -/
def Debugger.toggle_or_create (dbg : Debugger) (mem : Mem) (addr_ptr : Addr) :
    TableStep :=
  let report :=
    match lookupBp dbg.breakpoints addr_ptr with
    | some _ => "Breakpoint exists"
    | none => "Nothing"
  match lookupBp dbg.breakpoints addr_ptr with
  | some breakpoint =>
    let r := breakpoint.toggle_breakpoint mem
    { dbg := { dbg with breakpoints := replaceBp dbg.breakpoints addr_ptr r.bp },
      mem := r.mem, stdout := report :: r.log }
  | none =>
    let r := Breakpoint.create_new_breakpoint dbg.tracee_pid addr_ptr mem
    { dbg := { dbg with breakpoints := dbg.breakpoints ++ [(addr_ptr, r.bp)] },
      mem := r.mem, stdout := report :: r.log }

/-! ## Hex address parsing (`u64::from_str_radix(addr, 16)`) -/

/-- Value of one char as a base-16 digit (`char::to_digit(16)`). -/
def hexDigitValue (c : Char) : Option Nat :=
  if '0' ≤ c ∧ c ≤ '9' then some (c.toNat - '0'.toNat)
  else if 'a' ≤ c ∧ c ≤ 'f' then some (c.toNat - 'a'.toNat + 10)
  else if 'A' ≤ c ∧ c ≤ 'F' then some (c.toNat - 'A'.toNat + 10)
  else none

/-- Accumulate base-16 digits left to right; `none` on the first invalid
digit. -/
def parseHexDigits : List Char → Nat → Option Nat
  | [], acc => some acc
  | c :: cs, acc =>
    match hexDigitValue c with
    | some d => parseHexDigits cs (acc * 16 + d)
    | none => none

/-- Parse a non-empty all-digit string; values at or above `2 ^ 64`
overflow `u64` and are errors (the running checked-arithmetic error of
`from_str_radix`, equivalent because the accumulator only grows). -/
def parseHexNat (ds : List Char) : Option Nat :=
  if ds.isEmpty then none
  else
    match parseHexDigits ds 0 with
    | some nv => if nv < 2 ^ 64 then some nv else none
    | none => none

/-- `u64::from_str_radix(s, 16)` on the character list: an optional
leading `+`, then at least one hex digit.  A leading `-` is only stripped
for signed types in Rust core, so for `u64` it falls through to the digit
loop and fails there as an invalid digit. -/
def from_str_radix_16_chars (ds : List Char) : Option Nat :=
  match ds with
  | [] => none
  | c :: rest =>
    if c = '+' then parseHexNat rest
    else parseHexNat (c :: rest)

/-- `u64::from_str_radix(s, 16)`. -/
def from_str_radix_16 (s : String) : Option Nat :=
  from_str_radix_16_chars s.data

/-- `addr.strip_prefix("0x")` folded with its `match`: drop a leading
`0x` if present, else keep the string. -/
def stripHexChars (ds : List Char) : List Char :=
  match ds with
  | c0 :: c1 :: rest => if c0 = '0' ∧ c1 = 'x' then rest else c0 :: c1 :: rest
  | _ => ds

/-- String-level wrapper for `stripHexChars`. -/
def stripHex (addr : String) : String :=
  String.mk (stripHexChars addr.data)

/-- `Debugger::handle_breakpoint`: strip an optional `0x`, parse the rest
as hex (`unwrap` renders a parse failure as `none`, the panic), and run
the toggle-or-create table operation at the parsed address (the
`u64`-to-pointer transmute is the identity on the model). -/
def Debugger.handle_breakpoint (dbg : Debugger) (mem : Mem) (addr : String) :
    Option TableStep :=
  let addr := stripHex addr
  match from_str_radix_16 addr with
  | none => none
  | some addr_ptr => some (dbg.toggle_or_create mem addr_ptr)

/-! ## Command dispatch -/

/-- The two tracing side effects a command can trigger:
`continue_tracee` (`ptrace::cont` + `waitpid`) and `quit`
(`kill(SIGINT)` + `exit(0)`). -/
inductive TraceeAction where
  | resume_and_wait
  | kill_and_exit
  deriving DecidableEq

/-- Result of one dispatched command: session state, inferior memory,
stdout and stderr lines, and the tracing side effect if any. -/
structure CmdResult where
  dbg : Debugger
  mem : Mem
  stdout : List String
  stderr : List String
  action : Option TraceeAction

/-- Rust's `str::split(' ')`: split at every single space, keeping empty
pieces (so the result is never the empty list). -/
def splitSpaces : List Char → List (List Char)
  | [] => [[]]
  | c :: rest =>
    if c = ' ' then [] :: splitSpaces rest
    else
      match splitSpaces rest with
      | [] => [[c]]
      | t :: ts => (c :: t) :: ts

/-- `Debugger::handle_command` after the split: match on `command[0]`
(an empty token vector would panic at the index, hence `none`, though the
split never produces one) and on the argument count. -/
def Debugger.handle_command_tokens (dbg : Debugger) (mem : Mem) :
    List String → Option CmdResult
  | [] => none
  | c0 :: rest =>
    if c0 = "break" then
      match rest with
      | [a1] =>
        (dbg.handle_breakpoint mem a1).map
          (fun r => { dbg := r.dbg, mem := r.mem, stdout := r.stdout,
                      stderr := [], action := none })
      | _ => some { dbg := dbg, mem := mem, stdout := [],
                    stderr := ["USAGE: break [address in hex]"], action := none }
    else if c0 = "continue" then
      match rest with
      | [] => some { dbg := dbg, mem := mem, stdout := [], stderr := [],
                     action := some TraceeAction.resume_and_wait }
      | _ => some { dbg := dbg, mem := mem, stdout := [],
                    stderr := ["USAGE: continue"], action := none }
    else if c0 = "exit" ∨ c0 = "quit" then
      match rest with
      | [] => some { dbg := dbg, mem := mem, stdout := [], stderr := [],
                     action := some TraceeAction.kill_and_exit }
      | _ => some { dbg := dbg, mem := mem, stdout := [],
                    stderr := ["USAGE: quit", "       exit"], action := none }
    else some { dbg := dbg, mem := mem, stdout := [],
                stderr := ["Unknown command"], action := none }

/-- `Debugger::handle_command`: split the line on spaces and dispatch. -/
def Debugger.handle_command (dbg : Debugger) (mem : Mem) (command : String) :
    Option CmdResult :=
  dbg.handle_command_tokens mem ((splitSpaces command.data).map (fun cs => String.mk cs))

/-! ## Register descriptor table -/

/-- `enum Register` from the source. -/
inductive Register where
  | r15 | r14 | r13 | r12 | rbp | rbx | r11 | r10
  | r9 | r8 | rax | rcx | rdx | rsi | rdi
  | orig_rax | rip | cs | eflags | rsp | ss
  | fs_base | gs_base | ds | es | fs | gs
  deriving DecidableEq, Fintype

/-- `struct RegDescriptor`: register identity, DWARF register number
(`-1` is the "no number" sentinel), display name. -/
structure RegDescriptor where
  reg : Register
  dwarf_reg_no : Int
  reg_name : String
  deriving DecidableEq

/-- `const REGISTER_COUNT: i32 = 27;`. -/
def REGISTER_COUNT : Int := 27

/-- `REG_DWARF_MAP`, copied entry by entry from the source. -/
def REG_DWARF_MAP : List RegDescriptor := [
  { reg := Register.r15, dwarf_reg_no := 15, reg_name := "r15" },
  { reg := Register.r14, dwarf_reg_no := 14, reg_name := "r14" },
  { reg := Register.r13, dwarf_reg_no := 13, reg_name := "r13" },
  { reg := Register.r12, dwarf_reg_no := 12, reg_name := "r12" },
  { reg := Register.rbp, dwarf_reg_no := 6, reg_name := "rbp" },
  { reg := Register.rbx, dwarf_reg_no := 3, reg_name := "rbx" },
  { reg := Register.r11, dwarf_reg_no := 11, reg_name := "r11" },
  { reg := Register.r10, dwarf_reg_no := 10, reg_name := "r10" },
  { reg := Register.r9, dwarf_reg_no := 9, reg_name := "r9" },
  { reg := Register.r8, dwarf_reg_no := 8, reg_name := "r8" },
  { reg := Register.rax, dwarf_reg_no := 0, reg_name := "rax" },
  { reg := Register.rcx, dwarf_reg_no := 2, reg_name := "rcx" },
  { reg := Register.rdx, dwarf_reg_no := 1, reg_name := "rdx" },
  { reg := Register.rsi, dwarf_reg_no := 4, reg_name := "rsi" },
  { reg := Register.rdi, dwarf_reg_no := 5, reg_name := "rdi" },
  { reg := Register.orig_rax, dwarf_reg_no := -1, reg_name := "orig_rax" },
  { reg := Register.rip, dwarf_reg_no := -1, reg_name := "rip" },
  { reg := Register.cs, dwarf_reg_no := 51, reg_name := "cs" },
  { reg := Register.eflags, dwarf_reg_no := -1, reg_name := "eflags" },
  { reg := Register.rsp, dwarf_reg_no := 7, reg_name := "rsp" },
  { reg := Register.ss, dwarf_reg_no := 52, reg_name := "ss" },
  { reg := Register.fs_base, dwarf_reg_no := 58, reg_name := "fs_base" },
  { reg := Register.gs_base, dwarf_reg_no := 59, reg_name := "gs_base" },
  { reg := Register.ds, dwarf_reg_no := 53, reg_name := "ds" },
  { reg := Register.es, dwarf_reg_no := 50, reg_name := "es" },
  { reg := Register.fs, dwarf_reg_no := 54, reg_name := "fs" },
  { reg := Register.gs, dwarf_reg_no := 55, reg_name := "gs" }
]

/-! ## Bit-level helper lemmas -/

lemma testBit_byte_high {b i : Nat} (hb : b < 256) (hi : 8 ≤ i) :
    b.testBit i = false := by
  apply Nat.testBit_eq_false_of_lt
  calc b < 256 := hb
    _ = 2 ^ 8 := by norm_num
    _ ≤ 2 ^ i := Nat.pow_le_pow_right (by norm_num) hi

lemma testBit_word_high {w i : Nat} (hw : w < 2 ^ 64) (hi : 64 ≤ i) :
    w.testBit i = false := by
  apply Nat.testBit_eq_false_of_lt
  exact lt_of_lt_of_le hw (Nat.pow_le_pow_right (by norm_num) hi)

lemma NEG_LOW_MASK_testBit (i : Nat) :
    NEG_LOW_MASK.testBit i = (decide (8 ≤ i) && decide (i < 64)) := by
  by_cases h : i < 64
  · interval_cases i <;> decide
  · have h64 : 64 ≤ i := by omega
    have : NEG_LOW_MASK.testBit i = false := by
      apply Nat.testBit_eq_false_of_lt
      calc NEG_LOW_MASK < 2 ^ 64 := by norm_num [NEG_LOW_MASK]
        _ ≤ 2 ^ i := Nat.pow_le_pow_right (by norm_num) h64
    simp [this, h]

lemma ff_testBit (i : Nat) : (0xff : Nat).testBit i = decide (i < 8) := by
  by_cases h : i < 8
  · interval_cases i <;> decide
  · have h8 : 8 ≤ i := by omega
    have hf : (0xff : Nat).testBit i = false := testBit_byte_high (by norm_num) h8
    simp [hf, h]

lemma land_ff_lt (w : Nat) : w &&& 0xff < 256 :=
  lt_of_le_of_lt Nat.and_le_right (by norm_num)

lemma lor_byte_land_ff {x b : Nat} (hb : b < 256) :
    ((x &&& NEG_LOW_MASK) ||| b) &&& 0xff = b := by
  apply Nat.eq_of_testBit_eq
  intro i
  simp only [Nat.testBit_land, Nat.testBit_lor, NEG_LOW_MASK_testBit, ff_testBit]
  by_cases h : i < 8
  · simp [h, Nat.not_le.mpr h]
  · have h8 : 8 ≤ i := by omega
    simp [h, testBit_byte_high hb h8]

/-- The word produced by `disable` after an `enable`, at the patched
address, is the original word again. -/
lemma enable_disable_word {w : Nat} (hw : w < 2 ^ 64) :
    ((((w &&& NEG_LOW_MASK) ||| INT3) &&& NEG_LOW_MASK) ||| (w &&& 0xff)) = w := by
  apply Nat.eq_of_testBit_eq
  intro i
  simp only [Nat.testBit_land, Nat.testBit_lor, NEG_LOW_MASK_testBit, ff_testBit]
  by_cases h8 : i < 8
  · simp [h8, Nat.not_le.mpr h8]
  · have h8' : 8 ≤ i := by omega
    by_cases h64 : i < 64
    · simp [h8', h64, testBit_byte_high (show INT3 < 256 by norm_num [INT3]) h8',
        Nat.not_lt.mpr h8']
    · have h64' : 64 ≤ i := by omega
      simp [Nat.not_lt.mpr h64', testBit_word_high hw h64', Nat.not_lt.mpr h8']

/-! ## C1: enable-then-disable round trip -/

/-- C1: for every address and every original word resident at that address
in the inferior's memory (a 64-bit word), calling `Breakpoint.enable` and
then `Breakpoint.disable` with no intervening writes restores the
inferior's memory exactly, including the original low byte:
`disable(enable(mem)) = mem`. -/
theorem C1_enable_disable_roundtrip (bp : Breakpoint) (mem : Mem)
    (hw : mem bp.addr < 2 ^ 64) :
    (((bp.enable mem).bp).disable ((bp.enable mem).mem)).mem = mem := by
  funext a
  simp only [Breakpoint.enable, Breakpoint.disable, ptraceRead, ptraceWrite]
  by_cases ha : a = bp.addr
  · subst ha
    simp [enable_disable_word hw]
  · simp [ha]

/-- Witness for C1 at a concrete breakpoint and memory. -/
theorem C1_enable_disable_roundtrip_witness :
    (fun _ => 0x4890 : Mem) (Breakpoint.mk 1 0 0 false).addr < 2 ^ 64 ∧
    ((((Breakpoint.mk 1 0 0 false).enable (fun _ => 0x4890)).bp).disable
      (((Breakpoint.mk 1 0 0 false).enable (fun _ => 0x4890)).mem)).mem =
      (fun _ => 0x4890 : Mem) :=
  ⟨by norm_num, C1_enable_disable_roundtrip (Breakpoint.mk 1 0 0 false)
    (fun _ => 0x4890) (by norm_num)⟩

/-! ## C9: only the low byte of the word at the breakpoint address changes -/

lemma patched_testBit_mid {w b i : Nat} (hb : b < 256) (hi8 : 8 ≤ i)
    (hi64 : i < 64) :
    ((w &&& NEG_LOW_MASK) ||| b).testBit i = w.testBit i := by
  simp [Nat.testBit_lor, Nat.testBit_land, NEG_LOW_MASK_testBit, hi8, hi64,
    testBit_byte_high hb hi8]

lemma ptraceWrite_same (mem : Mem) (addr : Addr) (w : Word) :
    ptraceWrite mem addr w addr = w := by
  simp [ptraceWrite]

lemma ptraceWrite_other (mem : Mem) (addr : Addr) (w : Word) {a : Addr}
    (ha : a ≠ addr) : ptraceWrite mem addr w a = mem a := by
  simp [ptraceWrite, ha]

/-- C9: `enable` and `disable` modify only the low byte of the single word
read at the breakpoint's address — bits 8 through 63 of that word are
written back unchanged — and no other memory of the inferior is written. -/
theorem C9_only_low_byte (bp : Breakpoint) (mem : Mem) (i : Nat) (a : Addr)
    (hs : bp.saved_byte < 256) (hi8 : 8 ≤ i) (hi64 : i < 64)
    (ha : a ≠ bp.addr) :
    (((bp.enable mem).mem bp.addr).testBit i = (mem bp.addr).testBit i
      ∧ (bp.enable mem).mem a = mem a)
    ∧ (((bp.disable mem).mem bp.addr).testBit i = (mem bp.addr).testBit i
      ∧ (bp.disable mem).mem a = mem a) := by
  simp only [Breakpoint.enable, Breakpoint.disable, ptraceRead]
  refine ⟨⟨?_, ?_⟩, ?_, ?_⟩
  · rw [ptraceWrite_same]
    exact patched_testBit_mid (by norm_num [INT3]) hi8 hi64
  · exact ptraceWrite_other _ _ _ ha
  · rw [ptraceWrite_same]
    exact patched_testBit_mid hs hi8 hi64
  · exact ptraceWrite_other _ _ _ ha

/-- Witness for C9 at a concrete breakpoint, memory, bit index and second
address. -/
theorem C9_only_low_byte_witness :
    ((Breakpoint.mk 1 0 0x90 true).saved_byte < 256 ∧ 8 ≤ 8 ∧ 8 < 64 ∧
      (1 : Addr) ≠ (Breakpoint.mk 1 0 0x90 true).addr) ∧
    ((((Breakpoint.mk 1 0 0x90 true).enable (fun _ => 0xabcd)).mem
        (Breakpoint.mk 1 0 0x90 true).addr).testBit 8 =
        ((fun _ => 0xabcd : Mem) (Breakpoint.mk 1 0 0x90 true).addr).testBit 8
      ∧ ((Breakpoint.mk 1 0 0x90 true).enable (fun _ => 0xabcd)).mem 1 =
        (fun _ => 0xabcd : Mem) 1)
    ∧ ((((Breakpoint.mk 1 0 0x90 true).disable (fun _ => 0xabcd)).mem
        (Breakpoint.mk 1 0 0x90 true).addr).testBit 8 =
        ((fun _ => 0xabcd : Mem) (Breakpoint.mk 1 0 0x90 true).addr).testBit 8
      ∧ ((Breakpoint.mk 1 0 0x90 true).disable (fun _ => 0xabcd)).mem 1 =
        (fun _ => 0xabcd : Mem) 1) :=
  ⟨⟨by norm_num, by norm_num, by norm_num, by norm_num⟩,
    C9_only_low_byte (Breakpoint.mk 1 0 0x90 true) (fun _ => 0xabcd) 8 1
      (by norm_num) (by norm_num) (by norm_num) (by norm_num)⟩

/-! ## C8: toggling twice restores state and byte -/

/-- C8: for every breakpoint in an invariant-respecting state (when the
enabled flag is set, the resident low byte at its address is the trap
opcode, as the data model guarantees), two successive calls of
`toggle_breakpoint` restore the original enabled/disabled flag and the
original low byte at the breakpoint's address. -/
theorem C8_double_toggle (bp : Breakpoint) (mem : Mem)
    (hcc : bp.enabled = true → (mem bp.addr) &&& 0xff = INT3) :
    (((bp.toggle_breakpoint mem).bp.toggle_breakpoint
        (bp.toggle_breakpoint mem).mem).bp.enabled = bp.enabled)
    ∧ ((((bp.toggle_breakpoint mem).bp.toggle_breakpoint
        (bp.toggle_breakpoint mem).mem).mem bp.addr) &&& 0xff =
        (mem bp.addr) &&& 0xff) := by
  cases hb : bp.enabled with
  | true =>
    have hcc' := hcc hb
    simp only [Breakpoint.toggle_breakpoint, Breakpoint.disable,
      Breakpoint.enable, ptraceRead, hb]
    constructor
    · simp
    · simp [ptraceWrite_same, hcc',
        lor_byte_land_ff (show INT3 < 256 by norm_num [INT3])]
  | false =>
    simp only [Breakpoint.toggle_breakpoint, Breakpoint.disable,
      Breakpoint.enable, ptraceRead, hb]
    constructor
    · simp
    · simp [ptraceWrite_same, lor_byte_land_ff (land_ff_lt (mem bp.addr))]

/-- Witness for C8 at a concrete enabled breakpoint whose resident byte is
the trap opcode. -/
theorem C8_double_toggle_witness :
    ((Breakpoint.mk 1 0 0x90 true).enabled = true →
      ((fun _ => 0x3cc : Mem) (Breakpoint.mk 1 0 0x90 true).addr) &&& 0xff = INT3) ∧
    ((((Breakpoint.mk 1 0 0x90 true).toggle_breakpoint (fun _ => 0x3cc)).bp.toggle_breakpoint
        ((Breakpoint.mk 1 0 0x90 true).toggle_breakpoint (fun _ => 0x3cc)).mem).bp.enabled =
        (Breakpoint.mk 1 0 0x90 true).enabled)
    ∧ ((((Breakpoint.mk 1 0 0x90 true).toggle_breakpoint (fun _ => 0x3cc)).bp.toggle_breakpoint
        ((Breakpoint.mk 1 0 0x90 true).toggle_breakpoint (fun _ => 0x3cc)).mem).mem
        (Breakpoint.mk 1 0 0x90 true).addr) &&& 0xff =
        ((fun _ => 0x3cc : Mem) (Breakpoint.mk 1 0 0x90 true).addr) &&& 0xff :=
  ⟨fun _ => by decide,
    C8_double_toggle (Breakpoint.mk 1 0 0x90 true) (fun _ => 0x3cc)
      (fun _ => by decide)⟩

lemma invStrong_create (pid : Nat) (a : Addr) (mem : Mem) :
    BreakpointInvStrong ((mem a) &&& 0xff)
      ((Breakpoint.create_new_breakpoint pid a mem).bp)
      ((Breakpoint.create_new_breakpoint pid a mem).mem) := by
  refine ⟨rfl, land_ff_lt _, fun _ => ?_,
    fun h => by simp [Breakpoint.create_new_breakpoint, Breakpoint.enable] at h⟩
  show ptraceWrite mem a _ a &&& 0xff = INT3
  rw [ptraceWrite_same]
  exact lor_byte_land_ff (by norm_num [INT3])

lemma invStrong_disable {orig : Nat} {bp : Breakpoint} {mem : Mem}
    (h : BreakpointInvStrong orig bp mem) :
    BreakpointInvStrong orig (bp.disable mem).bp (bp.disable mem).mem := by
  obtain ⟨hsv, hlt, _, _⟩ := h
  refine ⟨hsv, hlt, fun hc => by simp [Breakpoint.disable] at hc, fun _ => ?_⟩
  show ptraceWrite mem bp.addr _ bp.addr &&& 0xff = orig
  rw [ptraceWrite_same, lor_byte_land_ff hlt]
  exact hsv

lemma invStrong_enable_of_disabled {orig : Nat} {bp : Breakpoint} {mem : Mem}
    (hd : bp.enabled = false) (h : BreakpointInvStrong orig bp mem) :
    BreakpointInvStrong orig (bp.enable mem).bp (bp.enable mem).mem := by
  obtain ⟨hsv, hlt, _, hdis⟩ := h
  have horig : (mem bp.addr) &&& 0xff = orig := hdis hd
  refine ⟨horig, land_ff_lt _, fun _ => ?_, fun hc => by simp [Breakpoint.enable] at hc⟩
  show ptraceWrite mem bp.addr _ bp.addr &&& 0xff = INT3
  rw [ptraceWrite_same]
  exact lor_byte_land_ff (by norm_num [INT3])

lemma invStrong_toggle {orig : Nat} {bp : Breakpoint} {mem : Mem}
    (h : BreakpointInvStrong orig bp mem) :
    BreakpointInvStrong orig (bp.toggle_breakpoint mem).bp
      (bp.toggle_breakpoint mem).mem := by
  cases hb : bp.enabled with
  | true =>
    have := invStrong_disable h
    simpa [Breakpoint.toggle_breakpoint, hb] using this
  | false =>
    have := invStrong_enable_of_disabled hb h
    simpa [Breakpoint.toggle_breakpoint, hb] using this

/-! ## C2: invariant preservation -/

/-- C2 counterexample: the claim says every Breakpoint operation preserves
the invariant, but `enable` invoked on an already-enabled breakpoint
captures the trap opcode into `saved_byte` and so breaks the
"`saved_byte` holds the true original byte" clause.  Concretely: a
breakpoint at address 0 whose original byte was `0x90` and which is
currently enabled (resident word `0x7cc`) satisfies the invariant, but
after one more `enable` it does not. -/
theorem C2_counterexample :
    BreakpointInv 0x90 (Breakpoint.mk 1 0 0x90 true) (fun _ => 0x7cc) ∧
    ¬ BreakpointInv 0x90
      ((Breakpoint.mk 1 0 0x90 true).enable (fun _ => 0x7cc)).bp
      ((Breakpoint.mk 1 0 0x90 true).enable (fun _ => 0x7cc)).mem := by
  unfold BreakpointInv Breakpoint.enable ptraceRead ptraceWrite INT3
  decide

/-- C2 (amended): `create_new_breakpoint` establishes the invariant with
`orig` the low byte resident before creation; `disable` and
`toggle_breakpoint` preserve the (inductively strengthened) invariant
unconditionally; `enable` preserves it provided the breakpoint is not
already enabled.  (`enable` on an already-enabled breakpoint is the one
operation that breaks it; the program itself only calls `enable` at
creation or from a disabled state.) -/
theorem C2_invariant_preservation (pid orig : Nat) (a : Addr)
    (bp : Breakpoint) (mem : Mem) :
    BreakpointInvStrong ((mem a) &&& 0xff)
      ((Breakpoint.create_new_breakpoint pid a mem).bp)
      ((Breakpoint.create_new_breakpoint pid a mem).mem)
    ∧ (BreakpointInvStrong orig bp mem →
        BreakpointInvStrong orig (bp.disable mem).bp (bp.disable mem).mem)
    ∧ (BreakpointInvStrong orig bp mem →
        BreakpointInvStrong orig (bp.toggle_breakpoint mem).bp
          (bp.toggle_breakpoint mem).mem)
    ∧ (bp.enabled = false → BreakpointInvStrong orig bp mem →
        BreakpointInvStrong orig (bp.enable mem).bp (bp.enable mem).mem) :=
  ⟨invStrong_create pid a mem, invStrong_disable, invStrong_toggle,
    invStrong_enable_of_disabled⟩

/-- Witness for C2 (amended) at a concrete disabled breakpoint: the
invariant holds before and still holds after `toggle_breakpoint`. -/
theorem C2_invariant_preservation_witness :
    BreakpointInvStrong 0x90 (Breakpoint.mk 1 0 0x90 false) (fun _ => 0x590) ∧
    BreakpointInvStrong 0x90
      ((Breakpoint.mk 1 0 0x90 false).toggle_breakpoint (fun _ => 0x590)).bp
      ((Breakpoint.mk 1 0 0x90 false).toggle_breakpoint (fun _ => 0x590)).mem := by
  have hInv : BreakpointInvStrong 0x90 (Breakpoint.mk 1 0 0x90 false)
      (fun _ => 0x590) := by
    unfold BreakpointInvStrong
    decide
  exact ⟨hInv,
    (C2_invariant_preservation 1 0x90 0 (Breakpoint.mk 1 0 0x90 false)
      (fun _ => 0x590)).2.2.1 hInv⟩

/-! ## C3: stability of the saved byte -/

/-- C3 counterexample: the claim says no later `enable`/`disable`/`toggle`,
in any sequence, overwrites `saved_byte`.  But `enable` re-captures the
resident low byte on every call, so the sequence "create, then enable
again" overwrites the saved original byte `0x90` with the trap opcode
capture `0xcc`. -/
theorem C3_counterexample :
    ((Breakpoint.create_new_breakpoint 1 0 (fun _ => 0x90)).bp).saved_byte = 0x90 ∧
    (((Breakpoint.create_new_breakpoint 1 0 (fun _ => 0x90)).bp).enable
      ((Breakpoint.create_new_breakpoint 1 0 (fun _ => 0x90)).mem)).bp.saved_byte
      = 0xcc := by
  unfold Breakpoint.create_new_breakpoint Breakpoint.enable ptraceRead ptraceWrite
  decide

lemma invStrong_applyToggles {orig : Nat} (n : Nat) :
    ∀ (bp : Breakpoint) (mem : Mem), BreakpointInvStrong orig bp mem →
      BreakpointInvStrong orig (applyToggles bp mem n).1 (applyToggles bp mem n).2 := by
  induction n with
  | zero => intro bp mem h; exact h
  | succ n ih =>
    intro bp mem h
    exact ih _ _ (invStrong_toggle h)

/-- C3 (amended): `saved_byte` is assigned at creation and re-assigned by
every `enable`, but in the operation sequences the program performs — a
creation followed by any number of `toggle_breakpoint` calls, so `enable`
only ever runs from a disabled state — its value always equals the low
byte originally resident at the address, and in particular is never
replaced by a trap-opcode capture.  (A direct `enable` on an
already-enabled breakpoint does overwrite it, as the counterexample
shows.) -/
theorem C3_saved_byte_stable (pid : Nat) (a : Addr) (mem : Mem) (n : Nat) :
    (applyToggles ((Breakpoint.create_new_breakpoint pid a mem).bp)
      ((Breakpoint.create_new_breakpoint pid a mem).mem) n).1.saved_byte =
      (mem a) &&& 0xff :=
  (invStrong_applyToggles n _ _ (invStrong_create pid a mem)).1

/-! ## C10: register table well-formedness -/

/-- C10: the static 27-entry register descriptor table lists each of the
27 register identities exactly once, and all DWARF register numbers other
than the `-1` sentinel are pairwise distinct, so reverse lookup from a
non-sentinel DWARF number to a register identity is unambiguous. -/
theorem C10_register_table :
    REG_DWARF_MAP.length = 27
    ∧ (∀ r : Register, REG_DWARF_MAP.countP (fun d => d.reg == r) = 1)
    ∧ REG_DWARF_MAP.Pairwise
        (fun d1 d2 => d1.dwarf_reg_no ≠ -1 → d2.dwarf_reg_no ≠ -1 →
          d1.dwarf_reg_no ≠ d2.dwarf_reg_no) := by
  refine ⟨rfl, by decide, by decide⟩

/-! ## Association-list lemmas for the breakpoint table -/

lemma lookupBp_append_of_none {m : List (Addr × Breakpoint)} {a : Addr}
    (h : lookupBp m a = none) (b : Breakpoint) :
    lookupBp (m ++ [(a, b)]) a = some b := by
  induction m with
  | nil => simp [lookupBp]
  | cons kv rest ih =>
    obtain ⟨k, v⟩ := kv
    by_cases hk : k = a
    · simp [lookupBp, hk] at h
    · simp only [lookupBp, hk, List.cons_append, if_false] at h ⊢
      exact ih h

lemma countP_key_zero_of_lookup_none {m : List (Addr × Breakpoint)} {a : Addr}
    (h : lookupBp m a = none) :
    m.countP (fun kv => kv.1 == a) = 0 := by
  induction m with
  | nil => simp
  | cons kv rest ih =>
    obtain ⟨k, v⟩ := kv
    by_cases hk : k = a
    · simp [lookupBp, hk] at h
    · simp only [lookupBp, hk, if_false] at h
      simp [List.countP_cons, hk, ih h]

lemma lookupBp_replaceBp_same {m : List (Addr × Breakpoint)} {a : Addr}
    {v : Breakpoint} (h : lookupBp m a = some v) (b : Breakpoint) :
    lookupBp (replaceBp m a b) a = some b := by
  induction m with
  | nil => simp [lookupBp] at h
  | cons kv rest ih =>
    obtain ⟨k, w⟩ := kv
    by_cases hk : k = a
    · simp [replaceBp, lookupBp, hk]
    · simp only [lookupBp, hk, if_false] at h
      simp [replaceBp, lookupBp, hk, ih h]

lemma length_replaceBp (m : List (Addr × Breakpoint)) (a : Addr) (b : Breakpoint) :
    (replaceBp m a b).length = m.length := by
  induction m with
  | nil => rfl
  | cons kv rest ih =>
    obtain ⟨k, w⟩ := kv
    by_cases hk : k = a
    · simp [replaceBp, hk]
    · simp [replaceBp, hk, ih]

lemma countP_key_replaceBp (m : List (Addr × Breakpoint)) (a c : Addr)
    (b : Breakpoint) :
    (replaceBp m a b).countP (fun kv => kv.1 == c) =
      m.countP (fun kv => kv.1 == c) := by
  induction m with
  | nil => rfl
  | cons kv rest ih =>
    obtain ⟨k, w⟩ := kv
    by_cases hk : k = a
    · subst hk
      simp [replaceBp, List.countP_cons]
    · simp [replaceBp, hk, List.countP_cons, ih]

/-! ## C7: existence reporting and single entry per address -/

/-- C7: `toggle_or_create` at an address with no table entry prints the
no-prior-entry report ("Nothing") and inserts a new enabled breakpoint;
invoked again at the same address it prints the entry-exists report
("Breakpoint exists") and toggles the existing breakpoint in place,
leaving exactly one entry for that address and not growing the table. -/
theorem C7_toggle_or_create_reporting (dbg : Debugger) (mem : Mem) (a : Addr)
    (h : lookupBp dbg.breakpoints a = none) :
    (dbg.toggle_or_create mem a).stdout.head? = some "Nothing"
    ∧ (Breakpoint.create_new_breakpoint dbg.tracee_pid a mem).bp.enabled = true
    ∧ lookupBp (dbg.toggle_or_create mem a).dbg.breakpoints a =
        some (Breakpoint.create_new_breakpoint dbg.tracee_pid a mem).bp
    ∧ (dbg.toggle_or_create mem a).dbg.breakpoints.countP (fun kv => kv.1 == a) = 1
    ∧ ((dbg.toggle_or_create mem a).dbg.toggle_or_create
        (dbg.toggle_or_create mem a).mem a).stdout.head? = some "Breakpoint exists"
    ∧ ((dbg.toggle_or_create mem a).dbg.toggle_or_create
        (dbg.toggle_or_create mem a).mem a).dbg.breakpoints.length =
        (dbg.toggle_or_create mem a).dbg.breakpoints.length
    ∧ ((dbg.toggle_or_create mem a).dbg.toggle_or_create
        (dbg.toggle_or_create mem a).mem a).dbg.breakpoints.countP
        (fun kv => kv.1 == a) = 1
    ∧ lookupBp ((dbg.toggle_or_create mem a).dbg.toggle_or_create
        (dbg.toggle_or_create mem a).mem a).dbg.breakpoints a =
        some (((Breakpoint.create_new_breakpoint dbg.tracee_pid a mem).bp).toggle_breakpoint
          (dbg.toggle_or_create mem a).mem).bp := by
  have hl1 : lookupBp (dbg.breakpoints ++
      [(a, (Breakpoint.create_new_breakpoint dbg.tracee_pid a mem).bp)]) a =
      some ((Breakpoint.create_new_breakpoint dbg.tracee_pid a mem).bp) :=
    lookupBp_append_of_none h _
  refine ⟨?_, rfl, ?_, ?_, ?_, ?_, ?_, ?_⟩
  · simp [Debugger.toggle_or_create, h]
  · simp [Debugger.toggle_or_create, h, hl1]
  · simp [Debugger.toggle_or_create, h, List.countP_append, List.countP_cons,
      countP_key_zero_of_lookup_none h]
  · simp [Debugger.toggle_or_create, h, hl1]
  · simp [Debugger.toggle_or_create, h, hl1, length_replaceBp]
  · simp [Debugger.toggle_or_create, h, hl1, countP_key_replaceBp,
      List.countP_append, List.countP_cons, countP_key_zero_of_lookup_none h]
  · simp [Debugger.toggle_or_create, h, hl1, lookupBp_replaceBp_same hl1]

/-- Witness for C7 at a concrete empty table, memory and address. -/
theorem C7_toggle_or_create_reporting_witness :
    lookupBp (Debugger.mk 1 "t" []).breakpoints 4096 = none ∧
    (((Debugger.mk 1 "t" []).toggle_or_create (fun _ => 0x90) 4096).stdout.head? =
        some "Nothing"
    ∧ (Breakpoint.create_new_breakpoint (Debugger.mk 1 "t" []).tracee_pid 4096
        (fun _ => 0x90)).bp.enabled = true
    ∧ lookupBp ((Debugger.mk 1 "t" []).toggle_or_create
        (fun _ => 0x90) 4096).dbg.breakpoints 4096 =
        some (Breakpoint.create_new_breakpoint (Debugger.mk 1 "t" []).tracee_pid 4096
          (fun _ => 0x90)).bp
    ∧ ((Debugger.mk 1 "t" []).toggle_or_create
        (fun _ => 0x90) 4096).dbg.breakpoints.countP (fun kv => kv.1 == 4096) = 1
    ∧ (((Debugger.mk 1 "t" []).toggle_or_create (fun _ => 0x90) 4096).dbg.toggle_or_create
        (((Debugger.mk 1 "t" []).toggle_or_create (fun _ => 0x90) 4096)).mem 4096).stdout.head? =
        some "Breakpoint exists"
    ∧ (((Debugger.mk 1 "t" []).toggle_or_create (fun _ => 0x90) 4096).dbg.toggle_or_create
        (((Debugger.mk 1 "t" []).toggle_or_create (fun _ => 0x90) 4096)).mem
        4096).dbg.breakpoints.length =
        ((Debugger.mk 1 "t" []).toggle_or_create (fun _ => 0x90) 4096).dbg.breakpoints.length
    ∧ (((Debugger.mk 1 "t" []).toggle_or_create (fun _ => 0x90) 4096).dbg.toggle_or_create
        (((Debugger.mk 1 "t" []).toggle_or_create (fun _ => 0x90) 4096)).mem
        4096).dbg.breakpoints.countP (fun kv => kv.1 == 4096) = 1
    ∧ lookupBp (((Debugger.mk 1 "t" []).toggle_or_create (fun _ => 0x90) 4096).dbg.toggle_or_create
        (((Debugger.mk 1 "t" []).toggle_or_create (fun _ => 0x90) 4096)).mem
        4096).dbg.breakpoints 4096 =
        some (((Breakpoint.create_new_breakpoint (Debugger.mk 1 "t" []).tracee_pid 4096
          (fun _ => 0x90)).bp).toggle_breakpoint
          ((Debugger.mk 1 "t" []).toggle_or_create (fun _ => 0x90) 4096).mem).bp) :=
  ⟨rfl, C7_toggle_or_create_reporting (Debugger.mk 1 "t" []) (fun _ => 0x90) 4096 rfl⟩

/-! ## C6: address spelling normalization -/

lemma data_append_0x (s : String) :
    (String.append "0x" s).data = '0' :: 'x' :: s.data := by
  cases s
  rfl

lemma stripHex_append_0x (s : String) : stripHex (String.append "0x" s) = s := by
  cases s with
  | mk d =>
    unfold stripHex
    rw [data_append_0x]
    simp [stripHexChars]

lemma parseHexDigits_0x (rest : List Char) (acc : Nat) :
    parseHexDigits ('0' :: 'x' :: rest) acc = none := by
  have h0 : hexDigitValue '0' = some 0 := rfl
  have hx : hexDigitValue 'x' = none := rfl
  simp [parseHexDigits, h0, hx]

lemma from_str_radix_16_chars_0x (rest : List Char) :
    from_str_radix_16_chars ('0' :: 'x' :: rest) = none := by
  simp only [from_str_radix_16_chars]
  rw [if_neg (by decide)]
  unfold parseHexNat
  rw [if_neg (by simp), parseHexDigits_0x]

lemma stripHex_of_parses {s : String} {n : Nat}
    (h : from_str_radix_16 s = some n) : stripHex s = s := by
  have hchars : stripHexChars s.data = s.data := by
    unfold from_str_radix_16 at h
    rcases hd : s.data with _ | ⟨c0, _ | ⟨c1, rest⟩⟩
    · simp [stripHexChars]
    · simp [stripHexChars]
    · rw [hd] at h
      simp only [stripHexChars]
      split_ifs with h01
      · obtain ⟨h0, h1⟩ := h01
        subst h0
        subst h1
        rw [from_str_radix_16_chars_0x] at h
        exact absurd h (by simp)
      · rfl
  unfold stripHex
  rw [hchars]

/-- C6: a hex address spelled with a leading `0x` and the same address
spelled without it parse to the same breakpoint-table key, and
`handle_breakpoint` (hence the toggle-or-create operation it performs)
behaves identically on both spellings. -/
theorem C6_hex_spelling_equivalent (dbg : Debugger) (mem : Mem) (s : String)
    (n : Nat) (h : from_str_radix_16 s = some n) :
    from_str_radix_16 (stripHex (String.append "0x" s)) =
      from_str_radix_16 (stripHex s)
    ∧ dbg.handle_breakpoint mem (String.append "0x" s) =
      dbg.handle_breakpoint mem s := by
  have h1 : stripHex (String.append "0x" s) = s := stripHex_append_0x s
  have h2 : stripHex s = s := stripHex_of_parses h
  constructor
  · rw [h1, h2]
  · unfold Debugger.handle_breakpoint
    rw [h1, h2]

/-- Witness for C6 at the concrete spellings "0x1000" and "1000". -/
theorem C6_hex_spelling_equivalent_witness :
    from_str_radix_16 "1000" = some 4096 ∧
    (from_str_radix_16 (stripHex (String.append "0x" "1000")) =
      from_str_radix_16 (stripHex "1000")
    ∧ (Debugger.mk 1 "t" []).handle_breakpoint (fun _ => 0x90)
        (String.append "0x" "1000") =
      (Debugger.mk 1 "t" []).handle_breakpoint (fun _ => 0x90) "1000") :=
  ⟨by decide, C6_hex_spelling_equivalent (Debugger.mk 1 "t" []) (fun _ => 0x90)
    "1000" 4096 (by decide)⟩

/-! ## Dispatcher case lemmas (C4, C5) -/

lemma handle_break_usage (dbg : Debugger) (mem : Mem) {rest : List String}
    (h : rest.length ≠ 1) :
    dbg.handle_command_tokens mem ("break" :: rest) =
      some (CmdResult.mk dbg mem [] ["USAGE: break [address in hex]"] none) := by
  rcases rest with _ | ⟨a, _ | ⟨b, t⟩⟩
  · rfl
  · simp at h
  · rfl

lemma handle_continue_usage (dbg : Debugger) (mem : Mem) {rest : List String}
    (h : rest ≠ []) :
    dbg.handle_command_tokens mem ("continue" :: rest) =
      some (CmdResult.mk dbg mem [] ["USAGE: continue"] none) := by
  rcases rest with _ | ⟨a, t⟩
  · exact absurd rfl h
  · rfl

lemma handle_exit_usage (dbg : Debugger) (mem : Mem) {rest : List String}
    (h : rest ≠ []) :
    dbg.handle_command_tokens mem ("exit" :: rest) =
      some (CmdResult.mk dbg mem [] ["USAGE: quit", "       exit"] none) := by
  rcases rest with _ | ⟨a, t⟩
  · exact absurd rfl h
  · rfl

lemma handle_quit_usage (dbg : Debugger) (mem : Mem) {rest : List String}
    (h : rest ≠ []) :
    dbg.handle_command_tokens mem ("quit" :: rest) =
      some (CmdResult.mk dbg mem [] ["USAGE: quit", "       exit"] none) := by
  rcases rest with _ | ⟨a, t⟩
  · exact absurd rfl h
  · rfl

lemma handle_unknown_command (dbg : Debugger) (mem : Mem) {c0 : String}
    (rest : List String) (h1 : c0 ≠ "break") (h2 : c0 ≠ "continue")
    (h3 : c0 ≠ "exit") (h4 : c0 ≠ "quit") :
    dbg.handle_command_tokens mem (c0 :: rest) =
      some (CmdResult.mk dbg mem [] ["Unknown command"] none) := by
  simp only [Debugger.handle_command_tokens]
  rw [if_neg h1, if_neg h2, if_neg (fun hor => hor.elim h3 h4)]

lemma handle_break_badhex (dbg : Debugger) (mem : Mem) {a : String}
    (h : from_str_radix_16 (stripHex a) = none) :
    dbg.handle_command_tokens mem ["break", a] = none := by
  simp [Debugger.handle_command_tokens, Debugger.handle_breakpoint, h]

/-! ## C5: arity validation leaves the session unchanged -/

/-- C5: `break` with an argument count other than one, and `continue`,
`exit` or `quit` with any trailing token, each produce exactly the usage
message on the error stream and leave the session state — the breakpoint
table, the inferior memory, and the inferior's run state (no tracing
action) — unchanged. -/
theorem C5_arity_validation (dbg : Debugger) (mem : Mem) :
    (∀ rest : List String, rest.length ≠ 1 →
      dbg.handle_command_tokens mem ("break" :: rest) =
        some (CmdResult.mk dbg mem [] ["USAGE: break [address in hex]"] none))
    ∧ (∀ rest : List String, rest ≠ [] →
      dbg.handle_command_tokens mem ("continue" :: rest) =
        some (CmdResult.mk dbg mem [] ["USAGE: continue"] none))
    ∧ (∀ rest : List String, rest ≠ [] →
      dbg.handle_command_tokens mem ("exit" :: rest) =
        some (CmdResult.mk dbg mem [] ["USAGE: quit", "       exit"] none))
    ∧ (∀ rest : List String, rest ≠ [] →
      dbg.handle_command_tokens mem ("quit" :: rest) =
        some (CmdResult.mk dbg mem [] ["USAGE: quit", "       exit"] none)) :=
  ⟨fun _ h => handle_break_usage dbg mem h,
    fun _ h => handle_continue_usage dbg mem h,
    fun _ h => handle_exit_usage dbg mem h,
    fun _ h => handle_quit_usage dbg mem h⟩

/-- Witness for C5 at concrete malformed lines: `break` with no token and
`continue`/`exit`/`quit` with one trailing token. -/
theorem C5_arity_validation_witness :
    (([] : List String).length ≠ 1 ∧ (["x"] : List String) ≠ []) ∧
    ((Debugger.mk 1 "t" []).handle_command_tokens (fun _ => 0) ["break"] =
        some (CmdResult.mk (Debugger.mk 1 "t" []) (fun _ => 0) []
          ["USAGE: break [address in hex]"] none)
    ∧ (Debugger.mk 1 "t" []).handle_command_tokens (fun _ => 0) ["continue", "x"] =
        some (CmdResult.mk (Debugger.mk 1 "t" []) (fun _ => 0) []
          ["USAGE: continue"] none)
    ∧ (Debugger.mk 1 "t" []).handle_command_tokens (fun _ => 0) ["exit", "x"] =
        some (CmdResult.mk (Debugger.mk 1 "t" []) (fun _ => 0) []
          ["USAGE: quit", "       exit"] none)
    ∧ (Debugger.mk 1 "t" []).handle_command_tokens (fun _ => 0) ["quit", "x"] =
        some (CmdResult.mk (Debugger.mk 1 "t" []) (fun _ => 0) []
          ["USAGE: quit", "       exit"] none)) :=
  ⟨⟨by decide, by decide⟩,
    (C5_arity_validation (Debugger.mk 1 "t" []) (fun _ => 0)).1 [] (by decide),
    (C5_arity_validation (Debugger.mk 1 "t" []) (fun _ => 0)).2.1 ["x"] (by decide),
    (C5_arity_validation (Debugger.mk 1 "t" []) (fun _ => 0)).2.2.1 ["x"] (by decide),
    (C5_arity_validation (Debugger.mk 1 "t" []) (fun _ => 0)).2.2.2 ["x"] (by decide)⟩

/-! ## C4: malformed commands -/

/-- C4 counterexample: the claim says every malformed command line —
including a `break` whose address token is not valid hex — is reported to
the error stream and the loop continues.  But `break zz` reaches
`u64::from_str_radix("zz", 16).unwrap()`, which panics and aborts the
session (`none` in the model), so this malformed command does not
report-and-continue. -/
theorem C4_counterexample :
    (Debugger.mk 1 "t" []).handle_command (fun _ => 0) "break zz" = none := rfl

/-- C4 (amended): unknown commands and wrong-arity commands are reported
on the error stream with the session state unchanged and the loop
continuing; but a `break` command whose single address token is not a
valid hexadecimal string panics at the `unwrap` and aborts the session
rather than being reported. -/
theorem C4_malformed_commands (dbg : Debugger) (mem : Mem) :
    (∀ (c0 : String) (rest : List String),
      c0 ≠ "break" → c0 ≠ "continue" → c0 ≠ "exit" → c0 ≠ "quit" →
      dbg.handle_command_tokens mem (c0 :: rest) =
        some (CmdResult.mk dbg mem [] ["Unknown command"] none))
    ∧ (∀ rest : List String, rest.length ≠ 1 →
      dbg.handle_command_tokens mem ("break" :: rest) =
        some (CmdResult.mk dbg mem [] ["USAGE: break [address in hex]"] none))
    ∧ (∀ rest : List String, rest ≠ [] →
      dbg.handle_command_tokens mem ("continue" :: rest) =
        some (CmdResult.mk dbg mem [] ["USAGE: continue"] none)
      ∧ dbg.handle_command_tokens mem ("exit" :: rest) =
        some (CmdResult.mk dbg mem [] ["USAGE: quit", "       exit"] none)
      ∧ dbg.handle_command_tokens mem ("quit" :: rest) =
        some (CmdResult.mk dbg mem [] ["USAGE: quit", "       exit"] none))
    ∧ (∀ a : String, from_str_radix_16 (stripHex a) = none →
      dbg.handle_command_tokens mem ["break", a] = none) :=
  ⟨fun _ rest h1 h2 h3 h4 => handle_unknown_command dbg mem rest h1 h2 h3 h4,
    fun _ h => handle_break_usage dbg mem h,
    fun _ h => ⟨handle_continue_usage dbg mem h, handle_exit_usage dbg mem h,
      handle_quit_usage dbg mem h⟩,
    fun _ h => handle_break_badhex dbg mem h⟩

/-- Witness for C4 (amended) at concrete inputs: the unknown command
`foo`, `break` with no token, `continue`/`exit`/`quit` with a trailing
token, and `break` with the invalid hex token `zz`. -/
theorem C4_malformed_commands_witness :
    (("foo" : String) ≠ "break" ∧ ("foo" : String) ≠ "continue"
      ∧ ("foo" : String) ≠ "exit" ∧ ("foo" : String) ≠ "quit"
      ∧ ([] : List String).length ≠ 1 ∧ (["y"] : List String) ≠ []
      ∧ from_str_radix_16 (stripHex "zz") = none) ∧
    ((Debugger.mk 1 "t" []).handle_command_tokens (fun _ => 0) ["foo"] =
        some (CmdResult.mk (Debugger.mk 1 "t" []) (fun _ => 0) []
          ["Unknown command"] none)
    ∧ (Debugger.mk 1 "t" []).handle_command_tokens (fun _ => 0) ["break"] =
        some (CmdResult.mk (Debugger.mk 1 "t" []) (fun _ => 0) []
          ["USAGE: break [address in hex]"] none)
    ∧ ((Debugger.mk 1 "t" []).handle_command_tokens (fun _ => 0) ["continue", "y"] =
        some (CmdResult.mk (Debugger.mk 1 "t" []) (fun _ => 0) []
          ["USAGE: continue"] none)
      ∧ (Debugger.mk 1 "t" []).handle_command_tokens (fun _ => 0) ["exit", "y"] =
        some (CmdResult.mk (Debugger.mk 1 "t" []) (fun _ => 0) []
          ["USAGE: quit", "       exit"] none)
      ∧ (Debugger.mk 1 "t" []).handle_command_tokens (fun _ => 0) ["quit", "y"] =
        some (CmdResult.mk (Debugger.mk 1 "t" []) (fun _ => 0) []
          ["USAGE: quit", "       exit"] none))
    ∧ (Debugger.mk 1 "t" []).handle_command_tokens (fun _ => 0) ["break", "zz"] = none) :=
  ⟨⟨by decide, by decide, by decide, by decide, by decide, by decide, by decide⟩,
    (C4_malformed_commands (Debugger.mk 1 "t" []) (fun _ => 0)).1 "foo" []
      (by decide) (by decide) (by decide) (by decide),
    (C4_malformed_commands (Debugger.mk 1 "t" []) (fun _ => 0)).2.1 [] (by decide),
    (C4_malformed_commands (Debugger.mk 1 "t" []) (fun _ => 0)).2.2.1 ["y"] (by decide),
    (C4_malformed_commands (Debugger.mk 1 "t" []) (fun _ => 0)).2.2.2 "zz" (by decide)⟩
